import Mathlib

/-
Verification of the deferred-initialization container of the Lazy
repository (bitwizeshift/Lazy).

The repository carries three revisions of the same component:
  (R0) include/Lazy.hpp + include/detail/Lazy.inl          -- earliest
  (R1) single_include/Lazy.hpp                             -- middle
  (R2) include/lazy/Lazy.hpp + include/lazy/detail/Lazy.inl -- newest

All three share the same state: a construction function (std::function),
a raw storage cell for one T, and a mutable initialization flag.  The
shallow embedding below models that state as a record:

  - m_ctor_function : Option (Except eps alpha) models the stored
    std::function.  `none` models an empty std::function (null or
    moved-from); `some (Except.ok v)` a recipe whose invocation
    placement-constructs the value v; `some (Except.error e)` a recipe
    whose invocation throws the exception e out of T's constructor.
  - m_storage : Option alpha models the raw aligned storage cell:
    `some v` when a live T with value v has been placement-constructed
    into it, `none` when the cell is dead raw memory.  Reading a dead
    cell (dereferencing ptr() while no T lives there) is undefined
    behavior in C++ and is modelled as the absence of a result.
  - m_is_initialized : Bool models the mutable bool flag.
  - ctorCalls : Nat is a ghost instrumentation counter with no C++
    counterpart: it counts how many times m_ctor_function has been
    entered, so that "the recipe is invoked exactly once" is statable.

Operations that can throw return Except; operations that mutate state
return the post-state explicitly.  Operations that in C++ mutate a
`const` source through `mutable` members (forcing a source during
copy/convert) return the mutated source as a second component.
-/

namespace lazy

/-- Decidable equality for Except values, needed to decide equalities
between container states at concrete inputs. -/
def exceptDecEq {ε α : Type} [DecidableEq ε] [DecidableEq α] :
    DecidableEq (Except ε α) := fun x y =>
  match x, y with
  | Except.ok a, Except.ok b =>
      if h : a = b then Decidable.isTrue (by rw [h])
      else Decidable.isFalse (by intro hh; cases hh; exact h rfl)
  | Except.error a, Except.error b =>
      if h : a = b then Decidable.isTrue (by rw [h])
      else Decidable.isFalse (by intro hh; cases hh; exact h rfl)
  | Except.ok _, Except.error _ => Decidable.isFalse (by intro hh; cases hh)
  | Except.error _, Except.ok _ => Decidable.isFalse (by intro hh; cases hh)

instance {ε α : Type} [DecidableEq ε] [DecidableEq α] :
    DecidableEq (Except ε α) := exceptDecEq

/-- Errors that an access to a Lazy container can raise.
badFunctionCall models std::bad_function_call, raised by invoking an
empty std::function; noLazyInitializer models the exception class
lazy::no_lazy_initializer_error declared in include/lazy_exceptions.hpp;
ctorThrew e models an exception e propagating out of T's constructor;
ubRead marks the undefined behavior of reading a dead storage cell. -/
inductive LazyError (ε : Type) where
  | badFunctionCall : LazyError ε
  | noLazyInitializer : LazyError ε
  | ctorThrew : ε → LazyError ε
  | ubRead : LazyError ε
deriving DecidableEq

/-- State of a lazy::Lazy container, common to all three revisions
of the source (field names follow include/lazy/Lazy.hpp, where the
construction function is called m_ctor_function; revisions R0/R1 name
the same field m_constructor).  ctorCalls is ghost instrumentation
counting invocations of the construction function; it has no C++
counterpart.  The m_destructor (finalizer) field of revisions R0/R1 is
not modelled: no claim mentions it. -/
structure Lazy (ε α : Type) where
  m_ctor_function : Option (Except ε α)
  m_storage : Option α
  m_is_initialized : Bool
  ctorCalls : Nat
deriving DecidableEq

/-- The representation invariant of the container (spec section 3):
the storage cell holds a live, fully-constructed T exactly when the
initialization flag is set. -/
def Inv {ε α : Type} (c : Lazy ε α) : Prop :=
  c.m_is_initialized = true ↔ c.m_storage.isSome = true

instance {ε α : Type} (c : Lazy ε α) : Decidable (Inv c) := by
  unfold Inv; infer_instance

/-- Lazy(U&&) value constructor (lazy/detail/Lazy.inl 160-178): stores
a recipe that constructs T from the captured value; no storage write,
not initialized. -/
def lazyFromValue {ε α : Type} (v : α) : Lazy ε α :=
  { m_ctor_function := some (Except.ok v)
    m_storage := none
    m_is_initialized := false
    ctorCalls := 0 }

/-- Lazy(in_place_t, Args&&...) constructor (lazy/detail/Lazy.inl
126-139): stores a recipe that forwards the captured argument pack to
T's constructor; r is the outcome of that deferred construction (ok of
the constructed value, or error if T's constructor throws). -/
def lazyInPlace {ε α : Type} (r : Except ε α) : Lazy ε α :=
  { m_ctor_function := some r
    m_storage := none
    m_is_initialized := false
    ctorCalls := 0 }

/-- Lazy(ctor_tag, Ctor&&) generator constructor reached through
make_lazy_generator (lazy/detail/Lazy.inl 440-447, 505-509): stores a
recipe that calls the generator for a tuple of arguments and constructs
T from them; r is the outcome of that deferred construction. -/
def lazyGenerator {ε α : Type} (r : Except ε α) : Lazy ε α :=
  { m_ctor_function := some r
    m_storage := none
    m_is_initialized := false
    ctorCalls := 0 }

/-- Lazy<T>::lazy_construct (lazy/detail/Lazy.inl 461-469; observably
the same in single_include/Lazy.hpp 839-848 and, through the
construct() callback, include/detail/Lazy.inl 248-255): if not
initialized, invoke m_ctor_function on the storage address and set the
flag.  Invoking an empty std::function throws std::bad_function_call
before the flag assignment; an exception from T's constructor likewise
propagates before the flag assignment, leaving no object in storage.
Returns the post-state and the raised error, if any. -/
def lazy_construct {ε α : Type} (c : Lazy ε α) :
    Lazy ε α × Option (LazyError ε) :=
  if c.m_is_initialized then (c, none)
  else
    match c.m_ctor_function with
    | none => (c, some LazyError.badFunctionCall)
    | some (Except.error e) =>
        ({ c with ctorCalls := c.ctorCalls + 1 },
         some (LazyError.ctorThrew e))
    | some (Except.ok v) =>
        ({ c with m_storage := some v
                  m_is_initialized := true
                  ctorCalls := c.ctorCalls + 1 }, none)

/-- Lazy<T>::value (lazy/detail/Lazy.inl 381-414): lazy_construct()
then return *ptr().  Returns the value read together with the
post-state. -/
def value {ε α : Type} (c : Lazy ε α) :
    Except (LazyError ε) (α × Lazy ε α) :=
  match lazy_construct c with
  | (c', none) =>
      match c'.m_storage with
      | some v => Except.ok (v, c')
      | none => Except.error LazyError.ubRead
  | (_, some e) => Except.error e

/-- Lazy<T>::operator* of the newest revision (lazy/detail/Lazy.inl
348-377): returns *ptr() with no call to lazy_construct.  The header
(lazy/Lazy.hpp 317-330) documents calling it on an uninitialized
container as undefined behavior; the undefined read of a dead cell is
the none case. -/
def operatorStar {ε α : Type} (c : Lazy ε α) : Option α :=
  c.m_storage

/-- Lazy<T>::operator-> of the newest revision (lazy/detail/Lazy.inl
333-345): returns ptr() with no call to lazy_construct; dereferencing
the returned pointer while uninitialized is the same undefined read. -/
def operatorArrow {ε α : Type} (c : Lazy ε α) : Option α :=
  c.m_storage

/-- Lazy<T>::has_value (lazy/detail/Lazy.inl 324-329): returns the
flag, no side effect. -/
def has_value {ε α : Type} (c : Lazy ε α) : Bool :=
  c.m_is_initialized

/-- Member function of Lazy<T> that explicitly triggers construction
(lazy/detail/Lazy.inl 283-288): its body just calls lazy_construct.
Its C++ name is a Lean keyword, hence the Lazy suffix. -/
def initializeLazy {ε α : Type} (c : Lazy ε α) :
    Lazy ε α × Option (LazyError ε) :=
  lazy_construct c

/-- Lazy<T>::destruct (lazy/detail/Lazy.inl 472-479): if initialized,
destroy the live T and clear the flag; m_ctor_function is untouched. -/
def destruct {ε α : Type} (c : Lazy ε α) : Lazy ε α :=
  if c.m_is_initialized then
    { c with m_storage := none, m_is_initialized := false }
  else c

/-- Lazy<T>::reset (lazy/detail/Lazy.inl 290-294): calls destruct. -/
def reset {ε α : Type} (c : Lazy ε α) : Lazy ε α :=
  destruct c

/-- Lazy<T>::swap (lazy/detail/Lazy.inl 296-310).  Both initialized:
swap the two live values.  Exactly this one initialized: swap(*ptr(),
other.value()) forces the other container and then swaps the two
values, leaving both initialized.  Exactly the other initialized:
symmetric, forcing this container through value().  Neither: swap the
construction functions only. -/
def swap {ε α : Type} (a b : Lazy ε α) :
    Except (LazyError ε) (Lazy ε α × Lazy ε α) :=
  if a.m_is_initialized && b.m_is_initialized then
    Except.ok ({ a with m_storage := b.m_storage },
               { b with m_storage := a.m_storage })
  else if a.m_is_initialized then
    match lazy_construct b with
    | (b', none) =>
        Except.ok ({ a with m_storage := b'.m_storage },
                   { b' with m_storage := a.m_storage })
    | (_, some e) => Except.error e
  else if b.m_is_initialized then
    match lazy_construct a with
    | (a', none) =>
        Except.ok ({ a' with m_storage := b.m_storage },
                   { b with m_storage := a'.m_storage })
    | (_, some e) => Except.error e
  else
    Except.ok ({ a with m_ctor_function := b.m_ctor_function },
               { b with m_ctor_function := a.m_ctor_function })

/-- Lazy<T>::operator=(U&&) of the newest revision (lazy/detail/
Lazy.inl 271-277): the body is this->value() = std::forward<U>(value),
so an uninitialized destination is first lazily constructed through its
stored recipe and only then assigned. -/
def assign_value {ε α : Type} (c : Lazy ε α) (v : α) :
    Except (LazyError ε) (Lazy ε α) :=
  match value c with
  | Except.ok (_, c') => Except.ok { c' with m_storage := some v }
  | Except.error e => Except.error e

/-- Lazy<T>::operator=(const value_type&) of the earliest revision
(include/detail/Lazy.inl 153-168): if initialized, assign(rhs) into the
live value; else construct(rhs) placement-constructs directly from the
source value, never touching m_constructor. -/
def assign_value_v1 {ε α : Type} (c : Lazy ε α) (v : α) : Lazy ε α :=
  if c.m_is_initialized then
    { c with m_storage := some v }
  else
    { c with m_storage := some v, m_is_initialized := true }

/-- Lazy<T>::operator=(const Lazy&) of the newest revision
(lazy/detail/Lazy.inl 192-205).  Both initialized: plain value
assignment.  Destination only: the destination's live value is assigned
from other.value(), forcing the source.  Source only: value() = *other
first forces the destination through its own recipe, then assigns the
source's live value.  Neither: copy the construction function.
Returns destination and (possibly forced) source post-states. -/
def assign_copy {ε α : Type} (a b : Lazy ε α) :
    Except (LazyError ε) (Lazy ε α × Lazy ε α) :=
  if a.m_is_initialized && b.m_is_initialized then
    Except.ok ({ a with m_storage := b.m_storage }, b)
  else if a.m_is_initialized then
    match lazy_construct b with
    | (b', none) => Except.ok ({ a with m_storage := b'.m_storage }, b')
    | (_, some e) => Except.error e
  else if b.m_is_initialized then
    match value a with
    | Except.ok (_, a') => Except.ok ({ a' with m_storage := b.m_storage }, b)
    | Except.error e => Except.error e
  else
    Except.ok ({ a with m_ctor_function := b.m_ctor_function }, b)

/-- Lazy<T>::operator=(Lazy&&) of the newest revision (lazy/detail/
Lazy.inl 208-221): same four cases as copy assignment; in the
neither-initialized case the construction function is moved from the
source, leaving the source's std::function empty (moved-from
std::function modelled as empty). -/
def assign_move {ε α : Type} (a b : Lazy ε α) :
    Except (LazyError ε) (Lazy ε α × Lazy ε α) :=
  if a.m_is_initialized && b.m_is_initialized then
    Except.ok ({ a with m_storage := b.m_storage }, b)
  else if a.m_is_initialized then
    match lazy_construct b with
    | (b', none) => Except.ok ({ a with m_storage := b'.m_storage }, b')
    | (_, some e) => Except.error e
  else if b.m_is_initialized then
    match value a with
    | Except.ok (_, a') => Except.ok ({ a' with m_storage := b.m_storage }, b)
    | Except.error e => Except.error e
  else
    Except.ok ({ a with m_ctor_function := b.m_ctor_function },
               { b with m_ctor_function := none })

/-- Lazy(const Lazy&) copy constructor (lazy/detail/Lazy.inl 19-27):
copies the construction function and the flag, and if the source is
initialized placement-constructs a copy of *other. -/
def copy_ctor {ε α : Type} (other : Lazy ε α) : Lazy ε α :=
  { m_ctor_function := other.m_ctor_function
    m_storage := if other.m_is_initialized then other.m_storage else none
    m_is_initialized := other.m_is_initialized
    ctorCalls := 0 }

/-- Lazy(Lazy&&) move constructor (lazy/detail/Lazy.inl 30-38;
single_include/Lazy.hpp 638-655 additionally nulls the source's
constructor explicitly): the new container takes the construction
function and the flag, move-constructing from *other when initialized;
the source keeps its flag and a moved-from live value, and its
std::function is left empty (moved-from std::function modelled as
empty).  Returns (new container, source post-state). -/
def move_ctor {ε α : Type} (other : Lazy ε α) : Lazy ε α × Lazy ε α :=
  ({ m_ctor_function := other.m_ctor_function
     m_storage := if other.m_is_initialized then other.m_storage else none
     m_is_initialized := other.m_is_initialized
     ctorCalls := 0 },
   { other with m_ctor_function := none })

/-- Converting copy constructor Lazy<T>(const Lazy<U>&) (lazy/detail/
Lazy.inl 63-81), with conv modelling construction of a T from a U
value.  The flag is copied first.  If the source was initialized, the
new container directly holds the converted live value and its
construction function is null.  Otherwise other.value() is taken,
forcing the source as a side effect, and a new T-producing recipe
capturing that value is stored; the new container stays uninitialized.
Returns (new container, source post-state). -/
def converting_copy {ε α β : Type} (conv : β → α) (other : Lazy ε β) :
    Except (LazyError ε) (Lazy ε α × Lazy ε β) :=
  if other.m_is_initialized then
    Except.ok
      ({ m_ctor_function := none
         m_storage := Option.map conv other.m_storage
         m_is_initialized := true
         ctorCalls := 0 }, other)
  else
    match value other with
    | Except.ok (v, other') =>
        Except.ok
          ({ m_ctor_function := some (Except.ok (conv v))
             m_storage := none
             m_is_initialized := false
             ctorCalls := 0 }, other')
    | Except.error e => Except.error e

/-- Lazy<T>::operator* of the two older revisions (include/detail/
Lazy.inl 202-214 and single_include/Lazy.hpp 791-804, likewise their
operator-> and get): lazy_construct() then return *ptr(), the same
sequence as value() of the newest revision. -/
def operatorStarOld {ε α : Type} (c : Lazy ε α) :
    Except (LazyError ε) (α × Lazy ε α) :=
  match lazy_construct c with
  | (c', none) =>
      match c'.m_storage with
      | some v => Except.ok (v, c')
      | none => Except.error LazyError.ubRead
  | (_, some e) => Except.error e

/-- Observable value of a container: what a call to value() would
return, discarding the state change.  Used to state the swap law. -/
def observedValue {ε α : Type} (c : Lazy ε α) : Except (LazyError ε) α :=
  Except.map Prod.fst (value c)

/-- Lazy<T>::value_or (lazy/detail/Lazy.inl 418-433): has_value() ?
*ptr() : default_value.  The body calls no mutating operation, so the
post-state is the input state unchanged; the read of *ptr() is only
performed when the flag is set. -/
def value_or {ε α : Type} (c : Lazy ε α) (d : α) :
    Option α × Lazy ε α :=
  ((if c.m_is_initialized then c.m_storage else some d), c)

/-
Helper lemmas shared by the claim theorems.
-/

theorem inv_uninit {ε α : Type} (f : Option (Except ε α)) (n : Nat) :
    Inv (⟨f, none, false, n⟩ : Lazy ε α) := by
  simp [Inv]

theorem inv_init {ε α : Type} (f : Option (Except ε α)) (v : α) (n : Nat) :
    Inv (⟨f, some v, true, n⟩ : Lazy ε α) := by
  simp [Inv]

theorem storage_of_uninit {ε α : Type} {c : Lazy ε α}
    (h : Inv c) (hi : c.m_is_initialized = false) : c.m_storage = none := by
  rcases hs : c.m_storage with _ | w
  · rfl
  · have : c.m_is_initialized = true := h.mpr (by simp [hs])
    rw [hi] at this
    exact absurd this (by simp)

theorem storage_of_init {ε α : Type} {c : Lazy ε α}
    (h : Inv c) (hi : c.m_is_initialized = true) :
    ∃ v, c.m_storage = some v := by
  have := h.mp hi
  rcases hs : c.m_storage with _ | w
  · rw [hs] at this; simp at this
  · exact ⟨w, rfl⟩

theorem lazy_construct_of_init {ε α : Type} {c : Lazy ε α}
    (hi : c.m_is_initialized = true) : lazy_construct c = (c, none) := by
  simp [lazy_construct, hi]

theorem lazy_construct_of_empty {ε α : Type} {c : Lazy ε α}
    (hi : c.m_is_initialized = false) (hf : c.m_ctor_function = none) :
    lazy_construct c = (c, some LazyError.badFunctionCall) := by
  simp [lazy_construct, hi, hf]

theorem lazy_construct_of_throw {ε α : Type} {c : Lazy ε α} {e : ε}
    (hi : c.m_is_initialized = false)
    (hf : c.m_ctor_function = some (Except.error e)) :
    lazy_construct c =
      ({ c with ctorCalls := c.ctorCalls + 1 },
       some (LazyError.ctorThrew e)) := by
  simp [lazy_construct, hi, hf]

theorem lazy_construct_of_ok {ε α : Type} {c : Lazy ε α} {v : α}
    (hi : c.m_is_initialized = false)
    (hf : c.m_ctor_function = some (Except.ok v)) :
    lazy_construct c =
      ({ c with m_storage := some v
                m_is_initialized := true
                ctorCalls := c.ctorCalls + 1 }, none) := by
  simp [lazy_construct, hi, hf]

theorem lazy_construct_fst_of_snd_none {ε α : Type} {c c' : Lazy ε α}
    (h : lazy_construct c = (c', none)) :
    c'.m_is_initialized = true ∨ c' = c := by
  by_cases hi : c.m_is_initialized
  · right
    rw [lazy_construct_of_init hi] at h
    exact (congrArg Prod.fst h).symm
  · have hi' : c.m_is_initialized = false := by simpa using hi
    rcases hf : c.m_ctor_function with _ | r
    · rw [lazy_construct_of_empty hi' hf] at h
      exact absurd (congrArg Prod.snd h) (by simp)
    · rcases r with e | v
      · rw [lazy_construct_of_throw hi' hf] at h
        exact absurd (congrArg Prod.snd h) (by simp)
      · rw [lazy_construct_of_ok hi' hf] at h
        left
        have h1 : ({ c with m_storage := some v, m_is_initialized := true,
                            ctorCalls := c.ctorCalls + 1 } : Lazy ε α) = c' :=
          congrArg Prod.fst h
        rw [← h1]

theorem value_of_init {ε α : Type} {c : Lazy ε α} {w : α}
    (hi : c.m_is_initialized = true) (hs : c.m_storage = some w) :
    value c = Except.ok (w, c) := by
  simp [value, lazy_construct_of_init hi, hs]

theorem value_of_uninit_ok {ε α : Type} {c : Lazy ε α} {v : α}
    (hi : c.m_is_initialized = false)
    (hf : c.m_ctor_function = some (Except.ok v)) :
    value c = Except.ok
      (v, { c with m_storage := some v
                   m_is_initialized := true
                   ctorCalls := c.ctorCalls + 1 }) := by
  simp [value, lazy_construct_of_ok hi hf]

theorem value_of_empty {ε α : Type} {c : Lazy ε α}
    (hi : c.m_is_initialized = false) (hf : c.m_ctor_function = none) :
    value c = Except.error LazyError.badFunctionCall := by
  simp [value, lazy_construct_of_empty hi hf]

theorem value_of_throw {ε α : Type} {c : Lazy ε α} {e : ε}
    (hi : c.m_is_initialized = false)
    (hf : c.m_ctor_function = some (Except.error e)) :
    value c = Except.error (LazyError.ctorThrew e) := by
  simp [value, lazy_construct_of_throw hi hf]

theorem value_of_init_dead {ε α : Type} {c : Lazy ε α}
    (hi : c.m_is_initialized = true) (hs : c.m_storage = none) :
    value c = Except.error LazyError.ubRead := by
  simp [value, lazy_construct_of_init hi, hs]

theorem value_ok_dest {ε α : Type} {c c' : Lazy ε α} {v : α}
    (h : value c = Except.ok (v, c')) :
    c'.m_is_initialized = true ∧ c'.m_storage = some v ∧
    c'.m_ctor_function = c.m_ctor_function ∧
    lazy_construct c = (c', none) := by
  by_cases hi : c.m_is_initialized
  · rcases hs : c.m_storage with _ | w
    · rw [value_of_init_dead hi hs] at h
      exact absurd h (by simp)
    · rw [value_of_init hi hs] at h
      injection h with h'
      injection h' with hv hc
      subst hv
      subst hc
      exact ⟨hi, hs, rfl, lazy_construct_of_init hi⟩
  · have hi' : c.m_is_initialized = false := by simpa using hi
    rcases hf : c.m_ctor_function with _ | r
    · rw [value_of_empty hi' hf] at h
      exact absurd h (by simp)
    · rcases r with e | w
      · rw [value_of_throw hi' hf] at h
        exact absurd h (by simp)
      · rw [value_of_uninit_ok hi' hf] at h
        injection h with h'
        injection h' with hv hc
        subst hv
        subst hc
        exact ⟨rfl, rfl, hf, lazy_construct_of_ok hi' hf⟩

theorem inv_lazy_construct {ε α : Type} {c : Lazy ε α} (h : Inv c) :
    Inv (lazy_construct c).1 := by
  by_cases hi : c.m_is_initialized
  · rw [lazy_construct_of_init hi]; exact h
  · have hi' : c.m_is_initialized = false := by simpa using hi
    rcases hf : c.m_ctor_function with _ | r
    · rw [lazy_construct_of_empty hi' hf]; exact h
    · rcases r with e | v
      · rw [lazy_construct_of_throw hi' hf]
        cases c
        simp_all [Inv]
      · rw [lazy_construct_of_ok hi' hf]
        cases c
        exact inv_init _ _ _

theorem inv_value_ok {ε α : Type} {c c' : Lazy ε α} {v : α}
    (h : value c = Except.ok (v, c')) : Inv c' := by
  obtain ⟨h1, h2, _, _⟩ := value_ok_dest h
  rw [Inv, h1, h2]
  simp

theorem inv_mk {ε α : Type} (f : Option (Except ε α)) (s : Option α)
    (bb : Bool) (n : Nat) (h : bb = s.isSome) :
    Inv (⟨f, s, bb, n⟩ : Lazy ε α) := by
  simp [Inv, h]

theorem inv_eq {ε α : Type} {c : Lazy ε α} (h : Inv c) :
    c.m_is_initialized = c.m_storage.isSome := by
  cases hi : c.m_is_initialized
  · simp [storage_of_uninit h hi]
  · obtain ⟨w, hw⟩ := storage_of_init h hi
    simp [hw]

theorem inv_set_ctor {ε α : Type} {c : Lazy ε α}
    (h : Inv c) (f : Option (Except ε α)) :
    Inv { c with m_ctor_function := f } := by
  simpa [Inv] using h

theorem inv_destruct {ε α : Type} {c : Lazy ε α} (h : Inv c) :
    Inv (destruct c) := by
  cases hi : c.m_is_initialized
  · simpa [destruct, hi] using h
  · simp [destruct, hi, Inv]

theorem inv_copy_ctor {ε α : Type} {c : Lazy ε α} (h : Inv c) :
    Inv (copy_ctor c) := by
  cases hi : c.m_is_initialized
  · simp [copy_ctor, hi, Inv]
  · rw [copy_ctor]
    exact inv_mk _ _ _ _ (by simp [hi, (inv_eq h).symm.trans hi])

theorem inv_move_ctor {ε α : Type} {c : Lazy ε α} (h : Inv c) :
    Inv (move_ctor c).1 ∧ Inv (move_ctor c).2 := by
  constructor
  · cases hi : c.m_is_initialized
    · simp [move_ctor, hi, Inv]
    · rw [move_ctor]
      exact inv_mk _ _ _ _ (by simp [hi, (inv_eq h).symm.trans hi])
  · exact inv_set_ctor h none

theorem lazy_construct_uninit_ok_dest {ε α : Type} {c c1 : Lazy ε α}
    (hi : c.m_is_initialized = false)
    (h : lazy_construct c = (c1, none)) :
    ∃ v, c.m_ctor_function = some (Except.ok v) ∧
      c1 = { c with m_storage := some v, m_is_initialized := true,
                    ctorCalls := c.ctorCalls + 1 } := by
  rcases hf : c.m_ctor_function with _ | r
  case none =>
    rw [lazy_construct_of_empty hi hf] at h
    exact absurd (congrArg Prod.snd h) (by simp)
  case some =>
    rcases r with e | v
    case error =>
      rw [lazy_construct_of_throw hi hf] at h
      exact absurd (congrArg Prod.snd h) (by simp)
    case ok =>
      have h1 : c1 = { c with m_storage := some v, m_is_initialized := true,
                              ctorCalls := c.ctorCalls + 1 } := by
        rw [lazy_construct_of_ok hi hf] at h
        exact (congrArg Prod.fst h).symm
      exact ⟨v, rfl, by rw [h1, hf]⟩

theorem swap_of_both_init {ε α : Type} {a b : Lazy ε α}
    (hA : a.m_is_initialized = true) (hB : b.m_is_initialized = true) :
    swap a b = Except.ok ({ a with m_storage := b.m_storage },
                          { b with m_storage := a.m_storage }) := by
  simp [swap, hA, hB]

theorem swap_of_left_init {ε α : Type} {a b b1 : Lazy ε α}
    (hA : a.m_is_initialized = true) (hB : b.m_is_initialized = false)
    (hlc : lazy_construct b = (b1, none)) :
    swap a b = Except.ok ({ a with m_storage := b1.m_storage },
                          { b1 with m_storage := a.m_storage }) := by
  simp [swap, hA, hB, hlc]

theorem swap_of_left_init_err {ε α : Type} {a b b1 : Lazy ε α}
    {e : LazyError ε}
    (hA : a.m_is_initialized = true) (hB : b.m_is_initialized = false)
    (hlc : lazy_construct b = (b1, some e)) :
    swap a b = Except.error e := by
  simp [swap, hA, hB, hlc]

theorem swap_of_right_init {ε α : Type} {a b a1 : Lazy ε α}
    (hA : a.m_is_initialized = false) (hB : b.m_is_initialized = true)
    (hlc : lazy_construct a = (a1, none)) :
    swap a b = Except.ok ({ a1 with m_storage := b.m_storage },
                          { b with m_storage := a1.m_storage }) := by
  simp [swap, hA, hB, hlc]

theorem swap_of_right_init_err {ε α : Type} {a b a1 : Lazy ε α}
    {e : LazyError ε}
    (hA : a.m_is_initialized = false) (hB : b.m_is_initialized = true)
    (hlc : lazy_construct a = (a1, some e)) :
    swap a b = Except.error e := by
  simp [swap, hA, hB, hlc]

theorem swap_of_both_uninit {ε α : Type} {a b : Lazy ε α}
    (hA : a.m_is_initialized = false) (hB : b.m_is_initialized = false) :
    swap a b = Except.ok ({ a with m_ctor_function := b.m_ctor_function },
                          { b with m_ctor_function := a.m_ctor_function }) := by
  simp [swap, hA, hB]

theorem assign_copy_of_both_init {ε α : Type} {a b : Lazy ε α}
    (hA : a.m_is_initialized = true) (hB : b.m_is_initialized = true) :
    assign_copy a b =
      Except.ok ({ a with m_storage := b.m_storage }, b) := by
  simp [assign_copy, hA, hB]

theorem assign_copy_of_left_init {ε α : Type} {a b b1 : Lazy ε α}
    (hA : a.m_is_initialized = true) (hB : b.m_is_initialized = false)
    (hlc : lazy_construct b = (b1, none)) :
    assign_copy a b =
      Except.ok ({ a with m_storage := b1.m_storage }, b1) := by
  simp [assign_copy, hA, hB, hlc]

theorem assign_copy_of_left_init_err {ε α : Type} {a b b1 : Lazy ε α}
    {e : LazyError ε}
    (hA : a.m_is_initialized = true) (hB : b.m_is_initialized = false)
    (hlc : lazy_construct b = (b1, some e)) :
    assign_copy a b = Except.error e := by
  simp [assign_copy, hA, hB, hlc]

theorem assign_copy_of_right_init {ε α : Type} {a b a1 : Lazy ε α} {w : α}
    (hA : a.m_is_initialized = false) (hB : b.m_is_initialized = true)
    (hv : value a = Except.ok (w, a1)) :
    assign_copy a b =
      Except.ok ({ a1 with m_storage := b.m_storage }, b) := by
  simp [assign_copy, hA, hB, hv]

theorem assign_copy_of_right_init_err {ε α : Type} {a b : Lazy ε α}
    {e : LazyError ε}
    (hA : a.m_is_initialized = false) (hB : b.m_is_initialized = true)
    (hv : value a = Except.error e) :
    assign_copy a b = Except.error e := by
  simp [assign_copy, hA, hB, hv]

theorem assign_copy_of_both_uninit {ε α : Type} {a b : Lazy ε α}
    (hA : a.m_is_initialized = false) (hB : b.m_is_initialized = false) :
    assign_copy a b =
      Except.ok ({ a with m_ctor_function := b.m_ctor_function }, b) := by
  simp [assign_copy, hA, hB]

theorem assign_move_of_both_init {ε α : Type} {a b : Lazy ε α}
    (hA : a.m_is_initialized = true) (hB : b.m_is_initialized = true) :
    assign_move a b =
      Except.ok ({ a with m_storage := b.m_storage }, b) := by
  simp [assign_move, hA, hB]

theorem assign_move_of_left_init {ε α : Type} {a b b1 : Lazy ε α}
    (hA : a.m_is_initialized = true) (hB : b.m_is_initialized = false)
    (hlc : lazy_construct b = (b1, none)) :
    assign_move a b =
      Except.ok ({ a with m_storage := b1.m_storage }, b1) := by
  simp [assign_move, hA, hB, hlc]

theorem assign_move_of_right_init {ε α : Type} {a b a1 : Lazy ε α} {w : α}
    (hA : a.m_is_initialized = false) (hB : b.m_is_initialized = true)
    (hv : value a = Except.ok (w, a1)) :
    assign_move a b =
      Except.ok ({ a1 with m_storage := b.m_storage }, b) := by
  simp [assign_move, hA, hB, hv]

theorem assign_move_of_both_uninit {ε α : Type} {a b : Lazy ε α}
    (hA : a.m_is_initialized = false) (hB : b.m_is_initialized = false) :
    assign_move a b =
      Except.ok ({ a with m_ctor_function := b.m_ctor_function },
                 { b with m_ctor_function := none }) := by
  simp [assign_move, hA, hB]

theorem converting_copy_of_init {ε α β : Type} {conv : β → α}
    {s : Lazy ε β} (hS : s.m_is_initialized = true) :
    converting_copy conv s =
      Except.ok (⟨none, Option.map conv s.m_storage, true, 0⟩, s) := by
  simp [converting_copy, hS]

theorem converting_copy_of_uninit {ε α β : Type} {conv : β → α}
    {s s1 : Lazy ε β} {v : β}
    (hS : s.m_is_initialized = false)
    (hv : value s = Except.ok (v, s1)) :
    converting_copy conv s =
      Except.ok (⟨some (Except.ok (conv v)), none, false, 0⟩, s1) := by
  simp [converting_copy, hS, hv]

theorem converting_copy_of_uninit_err {ε α β : Type} {conv : β → α}
    {s : Lazy ε β} {e : LazyError ε}
    (hS : s.m_is_initialized = false)
    (hv : value s = Except.error e) :
    converting_copy conv s = Except.error e := by
  simp [converting_copy, hS, hv]

theorem swap_both_init_dest {ε α : Type} {a b a' b' : Lazy ε α}
    (h : swap a b = Except.ok (a', b'))
    (hA : a.m_is_initialized = true) (hB : b.m_is_initialized = true) :
    a' = { a with m_storage := b.m_storage } ∧
    b' = { b with m_storage := a.m_storage } := by
  rw [swap_of_both_init hA hB] at h
  injection h with h'
  injection h' with e1 e2
  exact ⟨e1.symm, e2.symm⟩

theorem swap_both_uninit_dest {ε α : Type} {a b a' b' : Lazy ε α}
    (h : swap a b = Except.ok (a', b'))
    (hA : a.m_is_initialized = false) (hB : b.m_is_initialized = false) :
    a' = { a with m_ctor_function := b.m_ctor_function } ∧
    b' = { b with m_ctor_function := a.m_ctor_function } := by
  rw [swap_of_both_uninit hA hB] at h
  injection h with h'
  injection h' with e1 e2
  exact ⟨e1.symm, e2.symm⟩

theorem swap_left_init_dest {ε α : Type} {a b a' b' : Lazy ε α}
    (h : swap a b = Except.ok (a', b'))
    (hA : a.m_is_initialized = true) (hB : b.m_is_initialized = false) :
    ∃ v, b.m_ctor_function = some (Except.ok v) ∧
      a' = { a with m_storage := some v } ∧
      b' = { b with m_storage := a.m_storage, m_is_initialized := true,
                    ctorCalls := b.ctorCalls + 1 } := by
  rcases hlc : lazy_construct b with ⟨bc, err⟩
  cases err with
  | some e =>
    rw [swap_of_left_init_err hA hB hlc] at h
    exact absurd h (by simp)
  | none =>
    obtain ⟨v, hfb, hbc⟩ := lazy_construct_uninit_ok_dest hB hlc
    subst hbc
    rw [swap_of_left_init hA hB hlc] at h
    injection h with h'
    injection h' with e1 e2
    exact ⟨v, hfb, e1.symm, e2.symm⟩

theorem swap_right_init_dest {ε α : Type} {a b a' b' : Lazy ε α}
    (h : swap a b = Except.ok (a', b'))
    (hA : a.m_is_initialized = false) (hB : b.m_is_initialized = true) :
    ∃ v, a.m_ctor_function = some (Except.ok v) ∧
      a' = { a with m_storage := b.m_storage, m_is_initialized := true,
                    ctorCalls := a.ctorCalls + 1 } ∧
      b' = { b with m_storage := some v } := by
  rcases hlc : lazy_construct a with ⟨ac, err⟩
  cases err with
  | some e =>
    rw [swap_of_right_init_err hA hB hlc] at h
    exact absurd h (by simp)
  | none =>
    obtain ⟨v, hfa, hac⟩ := lazy_construct_uninit_ok_dest hA hlc
    subst hac
    rw [swap_of_right_init hA hB hlc] at h
    injection h with h'
    injection h' with e1 e2
    exact ⟨v, hfa, e1.symm, e2.symm⟩

theorem observedValue_of_init {ε α : Type} {c : Lazy ε α} {w : α}
    (hi : c.m_is_initialized = true) (hs : c.m_storage = some w) :
    observedValue c = Except.ok w := by
  rw [observedValue, value_of_init hi hs]
  rfl

theorem observedValue_of_uninit_ok {ε α : Type} {c : Lazy ε α} {v : α}
    (hi : c.m_is_initialized = false)
    (hf : c.m_ctor_function = some (Except.ok v)) :
    observedValue c = Except.ok v := by
  rw [observedValue, value_of_uninit_ok hi hf]
  rfl

theorem inv_swap {ε α : Type} {a b a' b' : Lazy ε α}
    (ha : Inv a) (hb : Inv b)
    (h : swap a b = Except.ok (a', b')) : Inv a' ∧ Inv b' := by
  cases hA : a.m_is_initialized <;> cases hB : b.m_is_initialized
  · rw [swap_of_both_uninit hA hB] at h
    injection h with h'
    injection h' with h1 h2
    subst h1; subst h2
    exact ⟨inv_set_ctor ha _, inv_set_ctor hb _⟩
  · rcases hlc : lazy_construct a with ⟨a1, err⟩
    cases err with
    | some e =>
      rw [swap_of_right_init_err hA hB hlc] at h
      exact absurd h (by simp)
    | none =>
      rw [swap_of_right_init hA hB hlc] at h
      injection h with h'
      injection h' with h1 h2
      subst h1; subst h2
      obtain ⟨v, hv, hc1⟩ := lazy_construct_uninit_ok_dest hA hlc
      subst hc1
      refine ⟨inv_mk _ _ _ _ ?_, inv_mk _ _ _ _ ?_⟩
      · simp [(inv_eq hb).symm.trans hB]
      · simp [hB]
  · rcases hlc : lazy_construct b with ⟨b1, err⟩
    cases err with
    | some e =>
      rw [swap_of_left_init_err hA hB hlc] at h
      exact absurd h (by simp)
    | none =>
      rw [swap_of_left_init hA hB hlc] at h
      injection h with h'
      injection h' with h1 h2
      subst h1; subst h2
      obtain ⟨v, hv, hc1⟩ := lazy_construct_uninit_ok_dest hB hlc
      subst hc1
      refine ⟨inv_mk _ _ _ _ ?_, inv_mk _ _ _ _ ?_⟩
      · simp [hA]
      · simp [(inv_eq ha).symm.trans hA]
  · rw [swap_of_both_init hA hB] at h
    injection h with h'
    injection h' with h1 h2
    subst h1; subst h2
    refine ⟨inv_mk _ _ _ _ ?_, inv_mk _ _ _ _ ?_⟩
    · simp [hA, (inv_eq hb).symm.trans hB]
    · simp [hB, (inv_eq ha).symm.trans hA]

theorem inv_assign_copy {ε α : Type} {a b a' b' : Lazy ε α}
    (ha : Inv a) (hb : Inv b)
    (h : assign_copy a b = Except.ok (a', b')) : Inv a' ∧ Inv b' := by
  cases hA : a.m_is_initialized <;> cases hB : b.m_is_initialized
  · rw [assign_copy_of_both_uninit hA hB] at h
    injection h with h'
    injection h' with h1 h2
    subst h1; subst h2
    exact ⟨inv_set_ctor ha _, hb⟩
  · rcases hv : value a with e | ⟨w, a1⟩
    · rw [assign_copy_of_right_init_err hA hB hv] at h
      exact absurd h (by simp)
    · rw [assign_copy_of_right_init hA hB hv] at h
      injection h with h'
      injection h' with h1 h2
      subst h1; subst h2
      obtain ⟨hf1, _, _, _⟩ := value_ok_dest hv
      refine ⟨inv_mk _ _ _ _ ?_, hb⟩
      simp [hf1, (inv_eq hb).symm.trans hB]
  · rcases hlc : lazy_construct b with ⟨b1, err⟩
    cases err with
    | some e =>
      rw [assign_copy_of_left_init_err hA hB hlc] at h
      exact absurd h (by simp)
    | none =>
      rw [assign_copy_of_left_init hA hB hlc] at h
      injection h with h'
      injection h' with h1 h2
      subst h1; subst h2
      obtain ⟨v, hv, hc1⟩ := lazy_construct_uninit_ok_dest hB hlc
      subst hc1
      refine ⟨inv_mk _ _ _ _ ?_, inv_mk _ _ _ _ ?_⟩
      · simp [hA]
      · simp
  · rw [assign_copy_of_both_init hA hB] at h
    injection h with h'
    injection h' with h1 h2
    subst h1; subst h2
    refine ⟨inv_mk _ _ _ _ ?_, hb⟩
    simp [hA, (inv_eq hb).symm.trans hB]

theorem inv_assign_move {ε α : Type} {a b a' b' : Lazy ε α}
    (ha : Inv a) (hb : Inv b)
    (h : assign_move a b = Except.ok (a', b')) : Inv a' ∧ Inv b' := by
  cases hA : a.m_is_initialized <;> cases hB : b.m_is_initialized
  · rw [assign_move_of_both_uninit hA hB] at h
    injection h with h'
    injection h' with h1 h2
    subst h1; subst h2
    exact ⟨inv_set_ctor ha _, inv_set_ctor hb _⟩
  · rcases hv : value a with e | ⟨w, a1⟩
    · rw [assign_move, hv] at h
      simp [hA, hB] at h
    · rw [assign_move_of_right_init hA hB hv] at h
      injection h with h'
      injection h' with h1 h2
      subst h1; subst h2
      obtain ⟨hf1, _, _, _⟩ := value_ok_dest hv
      refine ⟨inv_mk _ _ _ _ ?_, hb⟩
      simp [hf1, (inv_eq hb).symm.trans hB]
  · rcases hlc : lazy_construct b with ⟨b1, err⟩
    cases err with
    | some e =>
      have : assign_move a b = Except.error e := by
        simp [assign_move, hA, hB, hlc]
      rw [this] at h
      exact absurd h (by simp)
    | none =>
      rw [assign_move_of_left_init hA hB hlc] at h
      injection h with h'
      injection h' with h1 h2
      subst h1; subst h2
      obtain ⟨v, hv, hc1⟩ := lazy_construct_uninit_ok_dest hB hlc
      subst hc1
      refine ⟨inv_mk _ _ _ _ ?_, inv_mk _ _ _ _ ?_⟩
      · simp [hA]
      · simp
  · rw [assign_move_of_both_init hA hB] at h
    injection h with h'
    injection h' with h1 h2
    subst h1; subst h2
    refine ⟨inv_mk _ _ _ _ ?_, hb⟩
    simp [hA, (inv_eq hb).symm.trans hB]

theorem inv_assign_value {ε α : Type} {a c' : Lazy ε α} {v : α}
    (h : assign_value a v = Except.ok c') : Inv c' := by
  rcases hv : value a with e | ⟨w, a1⟩
  · rw [assign_value, hv] at h
    exact absurd h (by simp)
  · rw [assign_value, hv] at h
    injection h with h1
    subst h1
    obtain ⟨hf1, _, _, _⟩ := value_ok_dest hv
    exact inv_mk _ _ _ _ (by simp [hf1])

theorem inv_converting_copy {ε α β : Type} {conv : β → α}
    {s : Lazy ε β} {dst : Lazy ε α} {src' : Lazy ε β}
    (hs : Inv s)
    (h : converting_copy conv s = Except.ok (dst, src')) :
    Inv dst ∧ Inv src' := by
  cases hS : s.m_is_initialized
  · rcases hv : value s with e | ⟨w, s1⟩
    · rw [converting_copy_of_uninit_err hS hv] at h
      exact absurd h (by simp)
    · rw [converting_copy_of_uninit hS hv] at h
      injection h with h'
      injection h' with h1 h2
      subst h1; subst h2
      exact ⟨inv_uninit _ _, inv_value_ok hv⟩
  · rw [converting_copy_of_init hS] at h
    injection h with h'
    injection h' with h1 h2
    subst h1; subst h2
    refine ⟨inv_mk _ _ _ _ ?_, hs⟩
    obtain ⟨w, hw⟩ := storage_of_init hs hS
    simp [hw]

/-
Claim theorems.
-/

/-- C1: a container created with a deferred value, an argument pack or
a generator starts uninitialized; the first value() call invokes the
stored recipe exactly once (the ghost invocation counter rises by one),
sets the initialization flag, and returns the value the recipe
produces; a subsequent value() call returns the same live value from
the same state without invoking the recipe again. -/
theorem C1_value_constructs_exactly_once {ε α : Type} (c : Lazy ε α) (v : α)
    (hc : c = lazyFromValue v ∨ c = lazyInPlace (Except.ok v) ∨
          c = lazyGenerator (Except.ok v)) :
    has_value c = false ∧
    ∃ c', value c = Except.ok (v, c') ∧
      has_value c' = true ∧
      c'.ctorCalls = c.ctorCalls + 1 ∧
      c'.m_storage = some v ∧
      value c' = Except.ok (v, c') := by
  rcases hc with h | h | h <;> subst h <;>
    exact ⟨rfl, ⟨some (Except.ok v), some v, true, 1⟩, rfl, rfl, rfl, rfl, rfl⟩

/-- Witness for C1 at a container deferring the value 3. -/
theorem C1_witness :
    has_value (lazyFromValue (ε := Unit) (3 : Nat)) = false ∧
    ∃ c', value (lazyFromValue (ε := Unit) (3 : Nat)) = Except.ok (3, c') ∧
      has_value c' = true ∧
      c'.ctorCalls = (lazyFromValue (ε := Unit) (3 : Nat)).ctorCalls + 1 ∧
      c'.m_storage = some 3 ∧
      value c' = Except.ok (3, c') :=
  C1_value_constructs_exactly_once (lazyFromValue 3) 3 (Or.inl rfl)

/-- C7: if the wrapped type's constructor throws during lazy
construction, the exception propagates, the initialization flag stays
false, the storage cell holds no live or partially-constructed object,
and the stored recipe is unchanged by the failed attempt. -/
theorem C7_throwing_recipe_leaves_state {ε α : Type} (c : Lazy ε α) (e : ε)
    (hInv : Inv c)
    (hi : c.m_is_initialized = false)
    (hf : c.m_ctor_function = some (Except.error e)) :
    (lazy_construct c).2 = some (LazyError.ctorThrew e) ∧
    (lazy_construct c).1.m_is_initialized = false ∧
    (lazy_construct c).1.m_storage = none ∧
    (lazy_construct c).1.m_ctor_function = c.m_ctor_function ∧
    value c = Except.error (LazyError.ctorThrew e) := by
  have hs := storage_of_uninit hInv hi
  rw [lazy_construct_of_throw hi hf]
  exact ⟨rfl, hi, hs, rfl, value_of_throw hi hf⟩

/-- Witness for C7 at a container whose recipe throws the unit
exception. -/
theorem C7_witness :
    (lazy_construct (lazyInPlace (α := Nat) (Except.error ()))).2 =
      some (LazyError.ctorThrew ()) ∧
    (lazy_construct (lazyInPlace (α := Nat)
        (Except.error ()))).1.m_is_initialized = false ∧
    (lazy_construct (lazyInPlace (α := Nat)
        (Except.error ()))).1.m_storage = none ∧
    (lazy_construct (lazyInPlace (α := Nat)
        (Except.error ()))).1.m_ctor_function =
      (lazyInPlace (α := Nat) (Except.error ())).m_ctor_function ∧
    value (lazyInPlace (α := Nat) (Except.error ())) =
      Except.error (LazyError.ctorThrew ()) :=
  C7_throwing_recipe_leaves_state _ () (by decide) rfl rfl

/-- C9: with a usable recipe stored, initializing and then resetting
leaves the container reporting no value while the stored recipe is
preserved by reset, and a further explicit initialization succeeds and
re-establishes has_value. -/
theorem C9_reset_then_reinitialize {ε α : Type} (c : Lazy ε α) (v : α)
    (hf : c.m_ctor_function = some (Except.ok v)) :
    has_value (reset (initializeLazy c).1) = false ∧
    (reset (initializeLazy c).1).m_ctor_function = c.m_ctor_function ∧
    (initializeLazy (reset (initializeLazy c).1)).2 = none ∧
    has_value (initializeLazy (reset (initializeLazy c).1)).1 = true := by
  cases hi : c.m_is_initialized <;>
    simp [initializeLazy, reset, destruct, has_value, lazy_construct, hi, hf]

/-- Witness for C9 at a container deferring the value 4. -/
theorem C9_witness :
    has_value (reset (initializeLazy (lazyFromValue (ε := Unit)
      (4 : Nat))).1) = false ∧
    (reset (initializeLazy (lazyFromValue (ε := Unit)
      (4 : Nat))).1).m_ctor_function =
      (lazyFromValue (ε := Unit) (4 : Nat)).m_ctor_function ∧
    (initializeLazy (reset (initializeLazy (lazyFromValue (ε := Unit)
      (4 : Nat))).1)).2 = none ∧
    has_value (initializeLazy (reset (initializeLazy
      (lazyFromValue (ε := Unit) (4 : Nat))).1)).1 = true :=
  C9_reset_then_reinitialize (lazyFromValue 4) 4 rfl

/-- C10: value_or returns the contained value when initialized and the
supplied default otherwise; unlike value() it performs no construction:
the container state, including the ghost invocation counter, is
returned unchanged. -/
theorem C10_value_or_does_not_force {ε α : Type} (c : Lazy ε α) (d : α)
    (hInv : Inv c) :
    (c.m_is_initialized = true →
        ∃ w, c.m_storage = some w ∧ (value_or c d).1 = some w) ∧
    (c.m_is_initialized = false → (value_or c d).1 = some d) ∧
    (value_or c d).2 = c := by
  refine ⟨?_, ?_, rfl⟩
  · intro hi
    obtain ⟨w, hw⟩ := storage_of_init hInv hi
    exact ⟨w, hw, by simp [value_or, hi, hw]⟩
  · intro hi
    simp [value_or, hi]

/-- Witness for C10 at an initialized container holding 5 with
default 9. -/
theorem C10_witness :
    ((⟨some (Except.ok 1), some 5, true, 1⟩ :
        Lazy Unit Nat).m_is_initialized = true →
      ∃ w, (⟨some (Except.ok 1), some 5, true, 1⟩ :
        Lazy Unit Nat).m_storage = some w ∧
        (value_or (⟨some (Except.ok 1), some 5, true, 1⟩ :
          Lazy Unit Nat) 9).1 = some w) ∧
    ((⟨some (Except.ok 1), some 5, true, 1⟩ :
        Lazy Unit Nat).m_is_initialized = false →
      (value_or (⟨some (Except.ok 1), some 5, true, 1⟩ :
        Lazy Unit Nat) 9).1 = some 9) ∧
    (value_or (⟨some (Except.ok 1), some 5, true, 1⟩ :
      Lazy Unit Nat) 9).2 =
      (⟨some (Except.ok 1), some 5, true, 1⟩ : Lazy Unit Nat) :=
  C10_value_or_does_not_force _ 9 (by decide)

/-- C8: converting-copying a never-forced container deferring the C
string Hello World into a string container leaves the destination
uninitialized, makes its value() produce the string Hello World, and
forces the source, whose has_value becomes true as a side effect of
the conversion taking the source's value.  The C string is modelled as
the list of its characters and the string construction from it as
String.mk. -/
theorem C8_converting_copy_forces_source :
    ∃ dst src',
      converting_copy String.mk
        (lazyFromValue (ε := Unit) "Hello World".data) =
        Except.ok (dst, src') ∧
      has_value dst = false ∧
      has_value src' = true ∧
      (∃ dst', value dst = Except.ok ("Hello World", dst') ∧
        has_value dst' = true) ∧
      value src' = Except.ok ("Hello World".data, src') := by
  refine ⟨⟨some (Except.ok "Hello World"), none, false, 0⟩,
    ⟨some (Except.ok "Hello World".data), some "Hello World".data, true, 1⟩,
    rfl, rfl, rfl,
    ⟨⟨some (Except.ok "Hello World"), some "Hello World", true, 1⟩, rfl, rfl⟩,
    rfl⟩

/-- C4 counterexample: in the newest revision a dereference of the
uninitialized container deferring 42 reads the dead storage cell —
it returns no live value, invokes no recipe and sets no flag —
while value() on the same container constructs and returns 42. -/
theorem C4_counterexample :
    operatorStar (lazyFromValue (ε := Unit) (42 : Nat)) = none ∧
    operatorStar (lazyFromValue (ε := Unit) (42 : Nat)) ≠ some 42 ∧
    operatorArrow (lazyFromValue (ε := Unit) (42 : Nat)) = none ∧
    value (lazyFromValue (ε := Unit) (42 : Nat)) =
      Except.ok (42, ⟨some (Except.ok 42), some 42, true, 1⟩) := by
  decide

/-- C4 amended: in the newest revision operator* and operator->
perform no construction — they return the raw storage contents, which
for an uninitialized container is the undefined read of a dead cell —
and leave the state untouched; dereference lazily constructs exactly
as value() does only in the two older revisions, whose operator*
first runs lazy_construct, invoking the recipe exactly once, setting
the flag, and returning the constructed value on this and every
subsequent dereference. -/
theorem C4_deref_amended {ε α : Type} (c : Lazy ε α) (v : α)
    (hInv : Inv c)
    (hi : c.m_is_initialized = false)
    (hf : c.m_ctor_function = some (Except.ok v)) :
    operatorStar c = none ∧
    operatorArrow c = none ∧
    ∃ c', operatorStarOld c = Except.ok (v, c') ∧
      has_value c' = true ∧
      c'.ctorCalls = c.ctorCalls + 1 ∧
      operatorStarOld c' = Except.ok (v, c') ∧
      value c = Except.ok (v, c') := by
  have hs := storage_of_uninit hInv hi
  refine ⟨hs, hs,
    ⟨{ c with m_storage := some v, m_is_initialized := true,
              ctorCalls := c.ctorCalls + 1 }, ?_, rfl, rfl, ?_,
     value_of_uninit_ok hi hf⟩⟩
  · simp [operatorStarOld, lazy_construct_of_ok hi hf]
  · simp [operatorStarOld, lazy_construct]

/-- Witness for the amended C4 at the container deferring 7. -/
theorem C4_witness :
    operatorStar (lazyFromValue (ε := Unit) (7 : Nat)) = none ∧
    operatorArrow (lazyFromValue (ε := Unit) (7 : Nat)) = none ∧
    ∃ c', operatorStarOld (lazyFromValue (ε := Unit) (7 : Nat)) =
        Except.ok (7, c') ∧
      has_value c' = true ∧
      c'.ctorCalls = (lazyFromValue (ε := Unit) (7 : Nat)).ctorCalls + 1 ∧
      operatorStarOld c' = Except.ok (7, c') ∧
      value (lazyFromValue (ε := Unit) (7 : Nat)) = Except.ok (7, c') :=
  C4_deref_amended (lazyFromValue 7) 7 (by decide) rfl rfl

/-- C5 counterexample: in the newest revision, assigning the bare
value 7 to the uninitialized container deferring 5 invokes the stored
recipe (the invocation counter of the result is 1, not 0) before
assigning, contradicting that the value is constructed directly from
the source without ever invoking the recipe. -/
theorem C5_counterexample :
    Except.map Lazy.ctorCalls
      (assign_value (lazyFromValue (ε := Unit) (5 : Nat)) 7) =
      Except.ok 1 ∧
    Except.map Lazy.ctorCalls
      (assign_value (lazyFromValue (ε := Unit) (5 : Nat)) 7) ≠
      Except.ok 0 ∧
    assign_value (lazyFromValue (ε := Unit) (5 : Nat)) 7 =
      Except.ok ⟨some (Except.ok 5), some 7, true, 1⟩ := by
  decide

/-- C5 amended: value assignment always leaves the container
initialized and holding the assigned value.  When the destination is
initialized the live value is assigned and the recipe is not invoked.
When it is uninitialized, the earliest revision constructs the value
directly from the assigned value without touching the stored recipe,
but the newest revision first initializes the destination through its
stored recipe and only then assigns the value. -/
theorem C5_assign_value_amended {ε α : Type} (c : Lazy ε α) (v w : α)
    (hInv : Inv c) :
    (c.m_is_initialized = true →
        assign_value c v = Except.ok { c with m_storage := some v }) ∧
    (c.m_is_initialized = false → c.m_ctor_function = some (Except.ok w) →
        assign_value c v = Except.ok
          { c with m_storage := some v, m_is_initialized := true,
                   ctorCalls := c.ctorCalls + 1 }) ∧
    (assign_value_v1 c v).m_is_initialized = true ∧
    (assign_value_v1 c v).m_storage = some v ∧
    (assign_value_v1 c v).ctorCalls = c.ctorCalls ∧
    (assign_value_v1 c v).m_ctor_function = c.m_ctor_function := by
  refine ⟨?_, ?_, ?_, ?_, ?_, ?_⟩
  · intro hi
    obtain ⟨u, hu⟩ := storage_of_init hInv hi
    simp [assign_value, value_of_init hi hu]
  · intro hi hf
    simp [assign_value, value_of_uninit_ok hi hf]
  · cases hi : c.m_is_initialized <;> simp [assign_value_v1, hi]
  · cases hi : c.m_is_initialized <;> simp [assign_value_v1, hi]
  · cases hi : c.m_is_initialized <;> simp [assign_value_v1, hi]
  · cases hi : c.m_is_initialized <;> simp [assign_value_v1, hi]

/-- Witness for the amended C5 at the uninitialized container
deferring 5, assigned 7. -/
theorem C5_witness :
    ((lazyFromValue (ε := Unit) (5 : Nat)).m_is_initialized = true →
        assign_value (lazyFromValue (ε := Unit) (5 : Nat)) 7 =
          Except.ok { lazyFromValue (ε := Unit) (5 : Nat) with
                        m_storage := some 7 }) ∧
    ((lazyFromValue (ε := Unit) (5 : Nat)).m_is_initialized = false →
      (lazyFromValue (ε := Unit) (5 : Nat)).m_ctor_function =
        some (Except.ok 5) →
        assign_value (lazyFromValue (ε := Unit) (5 : Nat)) 7 =
          Except.ok { lazyFromValue (ε := Unit) (5 : Nat) with
                        m_storage := some 7, m_is_initialized := true,
                        ctorCalls := (lazyFromValue (ε := Unit)
                          (5 : Nat)).ctorCalls + 1 }) ∧
    (assign_value_v1 (lazyFromValue (ε := Unit) (5 : Nat))
        7).m_is_initialized = true ∧
    (assign_value_v1 (lazyFromValue (ε := Unit) (5 : Nat)) 7).m_storage =
      some 7 ∧
    (assign_value_v1 (lazyFromValue (ε := Unit) (5 : Nat)) 7).ctorCalls =
      (lazyFromValue (ε := Unit) (5 : Nat)).ctorCalls ∧
    (assign_value_v1 (lazyFromValue (ε := Unit) (5 : Nat))
        7).m_ctor_function =
      (lazyFromValue (ε := Unit) (5 : Nat)).m_ctor_function :=
  C5_assign_value_amended (lazyFromValue 5) 7 5 (by decide)

/-- C6 counterexample: accessing the moved-from source of the
container deferring 42 — a state with neither a live value nor a
usable construction function — raises the bad-function-call error of
invoking an empty std::function, not the distinguished
no-lazy-initializer error the claim names. -/
theorem C6_counterexample :
    value ((move_ctor (lazyFromValue (ε := Unit) (42 : Nat))).2) =
      Except.error LazyError.badFunctionCall ∧
    value ((move_ctor (lazyFromValue (ε := Unit) (42 : Nat))).2) ≠
      Except.error LazyError.noLazyInitializer := by
  decide

/-- C6 amended: a container left with neither a live value nor a
usable construction function (as after a move consumed its
std::function) fails lazy construction with std::bad_function_call
from invoking the empty std::function — not with the declared
no_lazy_initializer_error, which no lazy construction ever raises
because the class defined in include/lazy_exceptions.hpp is never
thrown — and the failure is recoverable: the state is unchanged and
the container remains safely destructible. -/
theorem C6_missing_recipe_error {ε α : Type} (c : Lazy ε α)
    (hInv : Inv c)
    (hi : c.m_is_initialized = false)
    (hf : c.m_ctor_function = none) :
    value c = Except.error LazyError.badFunctionCall ∧
    lazy_construct c = (c, some LazyError.badFunctionCall) ∧
    destruct c = c ∧
    Inv (destruct c) ∧
    (∀ d : Lazy ε α,
      (lazy_construct d).2 ≠ some LazyError.noLazyInitializer) := by
  have hdc : destruct c = c := by simp [destruct, hi]
  refine ⟨value_of_empty hi hf, lazy_construct_of_empty hi hf, hdc,
    (by rw [hdc]; exact hInv), ?_⟩
  intro d
  by_cases hd : d.m_is_initialized
  · rw [lazy_construct_of_init hd]; simp
  · have hd' : d.m_is_initialized = false := by simpa using hd
    rcases hg : d.m_ctor_function with _ | r
    · rw [lazy_construct_of_empty hd' hg]; simp
    · rcases r with e | w
      · rw [lazy_construct_of_throw hd' hg]; simp
      · rw [lazy_construct_of_ok hd' hg]; simp

/-- C2: every modelled public operation preserves the invariant that
the storage cell holds a live T exactly when the initialization flag
is set: the three creation forms establish it, and copy construction,
move construction, converting copy construction, copy/move/value
assignment, value(), explicit initialization, reset, destruction and
swap preserve it on every container they return. -/
theorem C2_operations_preserve_invariant {ε α β : Type}
    (a b : Lazy ε α) (s : Lazy ε β) (conv : β → α) (v : α)
    (r : Except ε α)
    (ha : Inv a) (hb : Inv b) (hs : Inv s) :
    Inv (lazyFromValue (ε := ε) v) ∧
    Inv (lazyInPlace r) ∧
    Inv (lazyGenerator r) ∧
    Inv (copy_ctor a) ∧
    Inv (move_ctor a).1 ∧ Inv (move_ctor a).2 ∧
    (∀ dst src', converting_copy conv s = Except.ok (dst, src') →
        Inv dst ∧ Inv src') ∧
    (∀ a' b', assign_copy a b = Except.ok (a', b') → Inv a' ∧ Inv b') ∧
    (∀ a' b', assign_move a b = Except.ok (a', b') → Inv a' ∧ Inv b') ∧
    (∀ c', assign_value a v = Except.ok c' → Inv c') ∧
    (∀ w c', value a = Except.ok (w, c') → Inv c') ∧
    Inv (initializeLazy a).1 ∧
    Inv (reset a) ∧
    Inv (destruct a) ∧
    (∀ a' b', swap a b = Except.ok (a', b') → Inv a' ∧ Inv b') := by
  refine ⟨inv_uninit _ _, inv_uninit _ _, inv_uninit _ _,
    inv_copy_ctor ha, (inv_move_ctor ha).1, (inv_move_ctor ha).2,
    fun dst src' h => inv_converting_copy hs h,
    fun a' b' h => inv_assign_copy ha hb h,
    fun a' b' h => inv_assign_move ha hb h,
    fun c' h => inv_assign_value h,
    fun w c' h => inv_value_ok h,
    inv_lazy_construct ha,
    inv_destruct ha,
    inv_destruct ha,
    fun a' b' h => inv_swap ha hb h⟩

/-- Witness for C2 at concrete initialized and deferred containers. -/
theorem C2_witness :
    Inv (lazyFromValue (ε := Unit) (4 : Nat)) ∧
    Inv (lazyInPlace (Except.ok 5 : Except Unit Nat)) ∧
    Inv (lazyGenerator (Except.ok 5 : Except Unit Nat)) ∧
    Inv (copy_ctor (⟨some (Except.ok 1), some 1, true, 0⟩ :
      Lazy Unit Nat)) ∧
    Inv (move_ctor (⟨some (Except.ok 1), some 1, true, 0⟩ :
      Lazy Unit Nat)).1 ∧
    Inv (move_ctor (⟨some (Except.ok 1), some 1, true, 0⟩ :
      Lazy Unit Nat)).2 ∧
    (∀ dst src', converting_copy Nat.succ
        (lazyFromValue (ε := Unit) (3 : Nat)) = Except.ok (dst, src') →
        Inv dst ∧ Inv src') ∧
    (∀ a' b', assign_copy (⟨some (Except.ok 1), some 1, true, 0⟩ :
        Lazy Unit Nat) (lazyFromValue 2) = Except.ok (a', b') →
        Inv a' ∧ Inv b') ∧
    (∀ a' b', assign_move (⟨some (Except.ok 1), some 1, true, 0⟩ :
        Lazy Unit Nat) (lazyFromValue 2) = Except.ok (a', b') →
        Inv a' ∧ Inv b') ∧
    (∀ c', assign_value (⟨some (Except.ok 1), some 1, true, 0⟩ :
        Lazy Unit Nat) 4 = Except.ok c' → Inv c') ∧
    (∀ w c', value (⟨some (Except.ok 1), some 1, true, 0⟩ :
        Lazy Unit Nat) = Except.ok (w, c') → Inv c') ∧
    Inv (initializeLazy (⟨some (Except.ok 1), some 1, true, 0⟩ :
      Lazy Unit Nat)).1 ∧
    Inv (reset (⟨some (Except.ok 1), some 1, true, 0⟩ :
      Lazy Unit Nat)) ∧
    Inv (destruct (⟨some (Except.ok 1), some 1, true, 0⟩ :
      Lazy Unit Nat)) ∧
    (∀ a' b', swap (⟨some (Except.ok 1), some 1, true, 0⟩ :
        Lazy Unit Nat) (lazyFromValue 2) = Except.ok (a', b') →
        Inv a' ∧ Inv b') :=
  C2_operations_preserve_invariant
    (⟨some (Except.ok 1), some 1, true, 0⟩ : Lazy Unit Nat)
    (lazyFromValue 2) (lazyFromValue 3) Nat.succ 4 (Except.ok 5)
    (by decide) (by decide) (by decide)

/-- C3 counterexample: with the left container initialized holding 1
and the right container uninitialized deferring 2, the first swap
forces the right container, so after swapping twice the right
container reports has_value true although it originally reported
false: the double swap does not restore the initialization states. -/
theorem C3_counterexample :
    swap (⟨some (Except.ok 1), some 1, true, 0⟩ : Lazy Unit Nat)
        (lazyFromValue 2) =
      Except.ok (⟨some (Except.ok 1), some 2, true, 0⟩,
                 ⟨some (Except.ok 2), some 1, true, 1⟩) ∧
    swap (⟨some (Except.ok 1), some 2, true, 0⟩ : Lazy Unit Nat)
        (⟨some (Except.ok 2), some 1, true, 1⟩ : Lazy Unit Nat) =
      Except.ok (⟨some (Except.ok 1), some 1, true, 0⟩,
                 ⟨some (Except.ok 2), some 2, true, 1⟩) ∧
    (⟨some (Except.ok 2), some 2, true, 1⟩ :
      Lazy Unit Nat).m_is_initialized = true ∧
    (lazyFromValue (ε := Unit) (2 : Nat)).m_is_initialized = false ∧
    (⟨some (Except.ok 2), some 2, true, 1⟩ :
      Lazy Unit Nat).m_is_initialized ≠
      (lazyFromValue (ε := Unit) (2 : Nat)).m_is_initialized ∧
    Inv (⟨some (Except.ok 1), some 1, true, 0⟩ : Lazy Unit Nat) ∧
    Inv (lazyFromValue (ε := Unit) (2 : Nat)) := by
  decide

/-- C3 amended: swapping twice always restores both containers'
observable values (what value() would return); the initialization
states are restored when both containers start in the same state
(both initialized or both uninitialized), but when exactly one is
initialized the first swap forces the uninitialized one, so after the
double swap both containers are initialized. -/
theorem C3_double_swap_restores {ε α : Type} {a b a1 b1 a2 b2 : Lazy ε α}
    (ha : Inv a) (hb : Inv b)
    (h1 : swap a b = Except.ok (a1, b1))
    (h2 : swap a1 b1 = Except.ok (a2, b2)) :
    observedValue a2 = observedValue a ∧
    observedValue b2 = observedValue b ∧
    (a.m_is_initialized = b.m_is_initialized →
      a2.m_is_initialized = a.m_is_initialized ∧
      b2.m_is_initialized = b.m_is_initialized) ∧
    (a.m_is_initialized ≠ b.m_is_initialized →
      a2.m_is_initialized = true ∧ b2.m_is_initialized = true) := by
  cases hA : a.m_is_initialized <;> cases hB : b.m_is_initialized
  · -- both uninitialized: only the recipes are swapped, twice
    obtain ⟨e1, e2⟩ := swap_both_uninit_dest h1 hA hB
    subst e1; subst e2
    obtain ⟨e3, e4⟩ := swap_both_uninit_dest h2 hA hB
    subst e3; subst e4
    exact ⟨rfl, rfl, fun _ => ⟨hA, hB⟩, fun hne => absurd rfl hne⟩
  · -- right initialized only: the first swap forces the left one
    obtain ⟨v, hfa, e1, e2⟩ := swap_right_init_dest h1 hA hB
    subst e1; subst e2
    obtain ⟨e3, e4⟩ := swap_both_init_dest h2 rfl hB
    subst e3; subst e4
    refine ⟨?_, rfl, fun heq => absurd heq (by simp), fun _ => ⟨rfl, hB⟩⟩
    have h3 : observedValue
        ({ a with m_storage := some v, m_is_initialized := true,
                  ctorCalls := a.ctorCalls + 1 } : Lazy ε α) =
        Except.ok v :=
      observedValue_of_init rfl rfl
    have h4 : observedValue a = Except.ok v :=
      observedValue_of_uninit_ok hA hfa
    exact h3.trans h4.symm
  · -- left initialized only: the first swap forces the right one
    obtain ⟨v, hfb, e1, e2⟩ := swap_left_init_dest h1 hA hB
    subst e1; subst e2
    obtain ⟨e3, e4⟩ := swap_both_init_dest h2 hA rfl
    subst e3; subst e4
    refine ⟨rfl, ?_, fun heq => absurd heq (by simp), fun _ => ⟨hA, rfl⟩⟩
    have h3 : observedValue
        ({ b with m_storage := some v, m_is_initialized := true,
                  ctorCalls := b.ctorCalls + 1 } : Lazy ε α) =
        Except.ok v :=
      observedValue_of_init rfl rfl
    have h4 : observedValue b = Except.ok v :=
      observedValue_of_uninit_ok hB hfb
    exact h3.trans h4.symm
  · -- both initialized: the two live values are swapped, twice
    obtain ⟨e1, e2⟩ := swap_both_init_dest h1 hA hB
    subst e1; subst e2
    obtain ⟨e3, e4⟩ := swap_both_init_dest h2 hA hB
    subst e3; subst e4
    exact ⟨rfl, rfl, fun _ => ⟨hA, hB⟩, fun hne => absurd rfl hne⟩

/-- Witness for the amended C3 at an initialized container holding 1
and an uninitialized container deferring 2. -/
theorem C3_witness :
    observedValue (⟨some (Except.ok 1), some 1, true, 0⟩ :
        Lazy Unit Nat) =
      observedValue (⟨some (Except.ok 1), some 1, true, 0⟩ :
        Lazy Unit Nat) ∧
    observedValue (⟨some (Except.ok 2), some 2, true, 1⟩ :
        Lazy Unit Nat) =
      observedValue (lazyFromValue (ε := Unit) (2 : Nat)) ∧
    ((⟨some (Except.ok 1), some 1, true, 0⟩ :
        Lazy Unit Nat).m_is_initialized =
      (lazyFromValue (ε := Unit) (2 : Nat)).m_is_initialized →
      (⟨some (Except.ok 1), some 1, true, 0⟩ :
        Lazy Unit Nat).m_is_initialized =
        (⟨some (Except.ok 1), some 1, true, 0⟩ :
          Lazy Unit Nat).m_is_initialized ∧
      (⟨some (Except.ok 2), some 2, true, 1⟩ :
        Lazy Unit Nat).m_is_initialized =
        (lazyFromValue (ε := Unit) (2 : Nat)).m_is_initialized) ∧
    ((⟨some (Except.ok 1), some 1, true, 0⟩ :
        Lazy Unit Nat).m_is_initialized ≠
      (lazyFromValue (ε := Unit) (2 : Nat)).m_is_initialized →
      (⟨some (Except.ok 1), some 1, true, 0⟩ :
        Lazy Unit Nat).m_is_initialized = true ∧
      (⟨some (Except.ok 2), some 2, true, 1⟩ :
        Lazy Unit Nat).m_is_initialized = true) :=
  @C3_double_swap_restores Unit Nat
    (⟨some (Except.ok 1), some 1, true, 0⟩ : Lazy Unit Nat)
    (lazyFromValue 2)
    (⟨some (Except.ok 1), some 2, true, 0⟩ : Lazy Unit Nat)
    (⟨some (Except.ok 2), some 1, true, 1⟩ : Lazy Unit Nat)
    (⟨some (Except.ok 1), some 1, true, 0⟩ : Lazy Unit Nat)
    (⟨some (Except.ok 2), some 2, true, 1⟩ : Lazy Unit Nat)
    (by decide) (by decide) (by decide) (by decide)

/-- Witness for the amended C6 at the moved-from source of the
container deferring 42. -/
theorem C6_witness :
    value ((move_ctor (lazyFromValue (ε := Unit) (42 : Nat))).2) =
      Except.error LazyError.badFunctionCall ∧
    lazy_construct ((move_ctor (lazyFromValue (ε := Unit) (42 : Nat))).2) =
      ((move_ctor (lazyFromValue (ε := Unit) (42 : Nat))).2,
       some LazyError.badFunctionCall) ∧
    destruct ((move_ctor (lazyFromValue (ε := Unit) (42 : Nat))).2) =
      (move_ctor (lazyFromValue (ε := Unit) (42 : Nat))).2 ∧
    Inv (destruct ((move_ctor (lazyFromValue (ε := Unit) (42 : Nat))).2)) ∧
    (∀ d : Lazy Unit Nat,
      (lazy_construct d).2 ≠ some LazyError.noLazyInitializer) :=
  C6_missing_recipe_error _ (by decide) rfl rfl

end lazy
